import Mathlib

/-!
Shallow embedding of the k6 load-test report generator
(`report-generator.js`): the line-oriented metrics parser, the
per-metric sample aggregator with its statistics, the timeseries
collector, and the data-model of the HTML renderer, together with
proofs of the specification claims about them.

JavaScript numbers that matter to the claims are modelled as exact
rationals; the JS values `NaN` and `undefined` (which arise from
missing statistics fields) are modelled explicitly, since the spec
makes claims about NaN reaching the rendered output.
-/

set_option allowUnsafeReducibility true in
attribute [semireducible] Rat.add Rat.mul Rat.inv Rat.sub Rat.ofScientific

/-- A JavaScript numeric value as it flows through the report code:
a finite number, `NaN`, or `undefined` (a missing object property). -/
inductive JNum where
  | num (q : ℚ)
  | nan
  | undef
deriving DecidableEq, Repr

namespace JNum

/-- JS `<` against a numeric literal: comparisons involving `NaN` or
`undefined` are false. -/
def jlt : JNum → ℚ → Bool
  | num q, b => decide (q < b)
  | nan, _ => false
  | undef, _ => false

/-- JS multiplication by a literal; `NaN`/`undefined` propagate to `NaN`. -/
def jmulc : JNum → ℚ → JNum
  | num q, b => num (q * b)
  | _, _ => nan

/-- JS division by a nonzero literal; `NaN`/`undefined` propagate to `NaN`. -/
def jdivc : JNum → ℚ → JNum
  | num q, b => num (q / b)
  | _, _ => nan

/-- JS multiplication of two values; any non-number makes `NaN`. -/
def jmul : JNum → JNum → JNum
  | num a, num b => num (a * b)
  | _, _ => nan

end JNum

open JNum

/-- Result of `formatDuration`: the unit suffix chosen by the branch and
the scaled numeric payload (`toFixed(2)` renders a `nan` payload as the
string `"NaN"`). -/
structure FmtDur where
  unitName : String
  scaled : JNum
deriving DecidableEq, Repr

/-- `formatDuration(ms)` from `report-generator.js`: branches on
`ms < 1`, `ms < 1000`, `ms < 60000`; on `undefined` every comparison is
false so it falls through to the minutes branch with a `NaN` payload. -/
def formatDuration (ms : JNum) : FmtDur :=
  if jlt ms 1 then ⟨"μs", jmulc ms 1000⟩
  else if jlt ms 1000 then ⟨"ms", ms⟩
  else if jlt ms 60000 then ⟨"s", jdivc ms 1000⟩
  else ⟨"m", jdivc ms 60000⟩

/-- Result of `formatBytes`: either the literal `'0 Bytes'` early return,
or a scaled value with the chosen size suffix (`none` when the computed
index falls outside the `sizes` array). -/
inductive FmtBytes where
  | zeroBytes
  | scaled (value : JNum) (unitName : Option String)
deriving DecidableEq, Repr

/-- `parseFloat(x.toFixed(2))`: rounding to two decimals. -/
def round2 (q : ℚ) : ℚ := (round (q * 100) : ℤ) / 100

/-- The `sizes` array of `formatBytes`. -/
def byteSizes : List String := ["Bytes", "KB", "MB", "GB"]

/-- `formatBytes(bytes)` from `report-generator.js`: `0` returns
`'0 Bytes'`; a positive number is scaled by `1024^⌊log_1024 bytes⌋`;
a non-positive or non-numeric input makes `Math.log` return `NaN`,
giving a `NaN` payload with an undefined size suffix. -/
def formatBytes (bytes : JNum) : FmtBytes :=
  match bytes with
  | num q =>
      if q = 0 then .zeroBytes
      else if 0 < q then
        let i : ℤ := Int.log 1024 q
        .scaled (num (round2 (q / (1024 : ℚ) ^ i)))
          (if 0 ≤ i ∧ i.toNat < byteSizes.length
           then some (byteSizes.getD i.toNat "") else none)
      else .scaled nan none
  | _ => .scaled nan none

/-- `getMetricUnit(metricName)`: the hard-coded unit table, defaulting
to the empty string. -/
def getMetricUnit (metricName : String) : String :=
  (([
    ("http_req_duration", "time"),
    ("http_req_waiting", "time"),
    ("http_req_connecting", "time"),
    ("http_req_tls_handshaking", "time"),
    ("http_req_sending", "time"),
    ("http_req_receiving", "time"),
    ("http_reqs", "count"),
    ("data_sent", "data"),
    ("data_received", "data"),
    ("iteration_duration", "time"),
    ("iterations", "count"),
    ("vus", "count"),
    ("vus_max", "count"),
    ("checks", "count")] : List (String × String)).lookup metricName).getD ""

/-- The statistics record built per metric by the aggregation pass. -/
structure Stats where
  min : ℚ
  max : ℚ
  avg : ℚ
  med : ℚ
  p90 : ℚ
  p95 : ℚ
  p99 : ℚ
  count : ℕ
deriving DecidableEq, Repr

/-- `values.sort((a, b) => a - b)`: numeric ascending sort. -/
def sortAsc (l : List ℚ) : List ℚ := l.insertionSort (· ≤ ·)

/-- `Math.floor(len * p)` used as a percentile index. -/
def pIdx (len : ℕ) (p : ℚ) : ℕ := (⌊(len : ℚ) * p⌋).toNat

/-- The statistics object assigned by the `Object.keys(samples)` loop of
`processK6Output` (evaluated there only when `values.length > 0`):
sorted values, `min`/`max` at the ends, mean, even/odd median, and
nearest-rank `p90`/`p95`/`p99` at index `Math.floor(len * p)`. -/
def computeStats (values : List ℚ) : Stats :=
  let v := sortAsc values
  let len := v.length
  { min := v.getD 0 0
    max := v.getD (len - 1) 0
    avg := v.sum / (len : ℚ)
    med := if len % 2 = 0 then
        (v.getD (len / 2 - 1) 0 + v.getD (len / 2) 0) / 2
      else v.getD (len / 2) 0
    p90 := v.getD (pIdx len (9/10)) 0
    p95 := v.getD (pIdx len (95/100)) 0
    p99 := v.getD (pIdx len (99/100)) 0
    count := len }

/-- The `data` payload of a `Point` record: `time` (as the millisecond
value of `new Date(...)`, `none` when the field is absent/falsy),
`value`, and the optional `tags` object. -/
structure PointData where
  time : Option ℚ
  value : ℚ
  tags : Option (List (String × String))
deriving DecidableEq, Repr

/-- One line of the k6 JSON log, classified as the parser sees it:
blank (skipped by `line.trim()`), non-JSON garbage (the `JSON.parse`
throw path), a `Metric` definition, a `Point` sample, or well-formed
JSON whose `type` is neither `Metric` nor `Point`. -/
inductive LogLine where
  | blank
  | garbage
  | metricLine (name ty contains : String)
  | pointLine (metric : String) (d : PointData)
  | otherLine
deriving DecidableEq, Repr

/-- The per-metric object created by the `Metric` branch: `stats` is
`none` while it is still the empty object `{}`. -/
structure MetricEntry where
  type : String
  contains : String
  unit : String
  stats : Option Stats
deriving DecidableEq, Repr

/-- JS object assignment `obj[k] = v`: replace in place if the key
exists (keeping its position in insertion order), else append. -/
def upsert (l : List (String × α)) (k : String) (v : α) : List (String × α) :=
  match l with
  | [] => [(k, v)]
  | (k', v') :: rest =>
      if k' = k then (k', v) :: rest else (k', v') :: upsert rest k v

/-- `obj[k] = (obj[k] || 0) + 1` for string keys. -/
def bump (l : List (String × ℕ)) (k : String) : List (String × ℕ) :=
  match l with
  | [] => [(k, 1)]
  | (k', n) :: rest =>
      if k' = k then (k', n + 1) :: rest else (k', n) :: bump rest k

/-- `obj[k] = (obj[k] || 0) + 1` for integer keys (the 100 ms latency
buckets). -/
def bumpI (l : List (ℤ × ℕ)) (k : ℤ) : List (ℤ × ℕ) :=
  match l with
  | [] => [(k, 1)]
  | (k', n) :: rest =>
      if k' = k then (k', n + 1) :: rest else (k', n) :: bumpI rest k

/-- `if (!samples[m]) samples[m] = []; samples[m].push(v)`. -/
def pushSample (l : List (String × List ℚ)) (k : String) (v : ℚ) :
    List (String × List ℚ) :=
  match l with
  | [] => [(k, [v])]
  | (k', vs) :: rest =>
      if k' = k then (k', vs ++ [v]) :: rest
      else (k', vs) :: pushSample rest k v

/-- `data.data.tags?.status`. -/
def tagStatus (tags : Option (List (String × String))) : Option String :=
  tags.bind (·.lookup "status")

/-- The accumulation state of the single `lines.forEach` pass of
`processK6Output`, plus a count of the `console.error` warnings emitted
by the `catch` branch. -/
structure ParseState where
  metrics : List (String × MetricEntry)
  samples : List (String × List ℚ)
  statusCodes : List (String × ℕ)
  timestamps : List ℚ
  vus : List ℚ
  responseTime : List (ℚ × ℚ)
  requests : List (ℚ × ℚ × Option String)
  dataTransfer : List (ℚ × ℚ)
  testStartTime : Option ℚ
  testEndTime : Option ℚ
  warnings : ℕ
deriving DecidableEq, Repr

def initState : ParseState :=
  { metrics := [], samples := [], statusCodes := [], timestamps := []
    vus := [], responseTime := [], requests := [], dataTransfer := []
    testStartTime := none, testEndTime := none, warnings := 0 }

/-- The timeseries block of the `Point` handling (the body of
`if (data.type === 'Point' && data.data.time)`): start/end time
tracking, status-code counting, and the per-metric series pushes. -/
def pointTimeseries (st : ParseState) (metric : String) (d : PointData) :
    ParseState :=
  match d.time with
  | none => st
  | some tms =>
      let tsec := tms / 1000
      let st := { st with
        testStartTime := some (match st.testStartTime with
          | none => tms | some s => if tms < s then tms else s)
        testEndTime := some (match st.testEndTime with
          | none => tms | some e => if e < tms then tms else e) }
      let st :=
        if metric = "http_reqs" then
          match tagStatus d.tags with
          | some s => if s ≠ "" then
              { st with statusCodes := bump st.statusCodes s } else st
          | none => st
        else st
      if metric = "vus" then
        { st with timestamps := st.timestamps ++ [tsec]
                  vus := st.vus ++ [d.value] }
      else if metric = "http_req_duration" then
        if tagStatus d.tags = some "200" then
          { st with responseTime := st.responseTime ++ [(tsec, d.value)] }
        else st
      else if metric = "http_reqs" then
        { st with requests := st.requests ++ [(tsec, d.value, tagStatus d.tags)] }
      else if metric = "data_received" then
        if tagStatus d.tags = some "200" then
          { st with dataTransfer := st.dataTransfer ++ [(tsec, d.value)] }
        else st
      else st

/-- The `Point` handling of one line: the timeseries block (guarded by
a truthy `data.data.time`), then the samples block with its
`http_req_duration` status-200 filter and early `return`. -/
def processPoint (st : ParseState) (metric : String) (d : PointData) :
    ParseState :=
  let st := pointTimeseries st metric d
  if metric = "http_req_duration" ∧ tagStatus d.tags ≠ some "200" then st
  else { st with samples := pushSample st.samples metric d.value }

/-- One iteration of the `lines.forEach` loop. -/
def processLine (st : ParseState) (l : LogLine) : ParseState :=
  match l with
  | .blank => st
  | .garbage => { st with warnings := st.warnings + 1 }
  | .otherLine => st
  | .metricLine name ty contains =>
      let entry : MetricEntry :=
        { type := ty, contains := contains
          unit := getMetricUnit name, stats := none }
      { st with metrics := upsert st.metrics name entry }
  | .pointLine metric d => processPoint st metric d

/-- The `Object.keys(samples).forEach` statistics loop: for each sampled
metric (in insertion order), when it has values, assign
`metrics[metricName].stats` — reading a property of `undefined` when the
metric was never defined, which throws. -/
def finalizeMetrics (ms : List (String × MetricEntry)) :
    List (String × List ℚ) → Except Unit (List (String × MetricEntry))
  | [] => .ok ms
  | (name, values) :: rest =>
      if 0 < values.length then
        match ms.lookup name with
        | none => .error ()
        | some e =>
            finalizeMetrics
              (upsert ms name { e with stats := some (computeStats values) }) rest
      else finalizeMetrics ms rest

/-- The `responseTimeBuckets` pass: 100 ms buckets keyed by
`Math.floor(value / 100) * 100` over the successful responses. -/
def responseTimeBuckets (pts : List (ℚ × ℚ)) : List (ℤ × ℕ) :=
  pts.foldl (fun acc p => bumpI acc (⌊p.2 / 100⌋ * 100)) []

/-- The `timeseriesData` object handed to the renderer. -/
structure TimeseriesData where
  timestamps : List ℚ
  vus : List ℚ
  responseTime : List (ℚ × ℚ)
  requests : List (ℚ × ℚ × Option String)
  dataTransfer : List (ℚ × ℚ)
  statusCodes : List (String × ℕ)
  responseTimeDistribution : List (ℤ × ℕ)
deriving DecidableEq, Repr

/-- The aggregate snapshot returned by `processK6Output`. -/
structure Snapshot where
  metrics : List (String × MetricEntry)
  testDuration : ℚ
  timeseriesData : TimeseriesData
deriving DecidableEq, Repr

/-- `processK6Output`, over an already line-classified log, also
returning the number of parse warnings. `testEndTime - testStartTime`
on two `null`s is JS `0`. -/
def processK6Output (lines : List LogLine) : Except Unit (Snapshot × ℕ) :=
  let st := lines.foldl processLine initState
  match finalizeMetrics st.metrics st.samples with
  | .error e => .error e
  | .ok ms => .ok
      ({ metrics := ms
         testDuration := match st.testStartTime, st.testEndTime with
           | some s, some e => e - s
           | _, _ => 0
         timeseriesData :=
           { timestamps := st.timestamps
             vus := st.vus
             responseTime := st.responseTime
             requests := st.requests
             dataTransfer := st.dataTransfer
             statusCodes := st.statusCodes
             responseTimeDistribution := responseTimeBuckets st.responseTime } },
       st.warnings)

instance [DecidableEq ε] [DecidableEq α] : DecidableEq (Except ε α) := fun a b =>
  match a, b with
  | .error x, .error y => decidable_of_iff (x = y) (by simp)
  | .ok x, .ok y => decidable_of_iff (x = y) (by simp)
  | .error _, .ok _ => .isFalse (by simp)
  | .ok _, .error _ => .isFalse (by simp)

/-- `stats.f` for a stats object that may still be the empty `{}`:
an absent property reads as `undefined`. -/
def statJ (s : Option Stats) (f : Stats → ℚ) : JNum :=
  match s with
  | none => .undef
  | some st => .num (f st)

/-- `stats.count` as a JS value (`undefined` on the empty object). -/
def statCountJ (s : Option Stats) : JNum :=
  match s with
  | none => .undef
  | some st => .num st.count

/-- The `Total Requests / Successful / Failed / Success Rate` lines of
the summary block (present only when `metrics.http_reqs` exists). -/
structure ReqSummary where
  total : ℕ
  successful : ℕ
  failed : ℤ
  successRate : JNum
deriving DecidableEq, Repr

/-- The data-dependent content of the HTML document produced by
`generateHTML`: the generation timestamp occurrences, the summary
block, both metric tables, and every `JSON.stringify`-embedded chart
payload, in document order. -/
structure RenderedReport where
  titleTimestamp : ℚ
  summaryStartTime : ℚ
  summaryDuration : FmtDur
  summaryRequests : Option ReqSummary
  summaryAvgResponse : Option FmtDur
  timeRows : List (String × List FmtDur)
  dataRows : List (String × FmtBytes × FmtBytes × FmtBytes × FmtBytes)
  chartTimestamps : List ℚ
  chartVus : List ℚ
  chartResponseTime : List (ℚ × ℚ)
  chartDistBuckets : List ℤ
  chartDistCounts : List ℕ
  chartSortedResponseTimes : List ℚ
  chartStatusCodes : List (String × ℕ)
deriving DecidableEq, Repr

/-- The seven statistics columns of the response-time table. -/
def timeStatFields : List (Stats → ℚ) :=
  [Stats.min, Stats.max, Stats.avg, Stats.med, Stats.p90, Stats.p95, Stats.p99]

/-- One row of the data-transfer table; the `Total` cell reads
`metrics.http_reqs.stats.count`, which throws when `http_reqs` is
absent. -/
def dataRow (metrics : List (String × MetricEntry)) (n : String)
    (e : MetricEntry) :
    Except Unit (String × FmtBytes × FmtBytes × FmtBytes × FmtBytes) :=
  match metrics.lookup "http_reqs" with
  | none => .error ()
  | some hr => .ok
      (n, formatBytes (statJ e.stats Stats.min),
       formatBytes (statJ e.stats Stats.max),
       formatBytes (statJ e.stats Stats.avg),
       formatBytes (jmul (statJ e.stats Stats.avg) (statCountJ hr.stats)))

/-- The `Total/Successful/Failed/Success Rate` summary lines: absent
when `metrics.http_reqs` is undefined; reading `.count.toLocaleString()`
off the empty stats object throws. -/
def reqSummaryBlock (data : Snapshot) : Except Unit (Option ReqSummary) :=
  let s200 := (data.timeseriesData.statusCodes.lookup "200").getD 0
  match data.metrics.lookup "http_reqs" with
  | none => .ok none
  | some e =>
      match e.stats with
      | none => .error ()
      | some st => .ok (some
          { total := st.count, successful := s200
            failed := (st.count : ℤ) - (s200 : ℤ)
            successRate := if st.count = 0 then .nan
              else .num ((s200 : ℚ) / (st.count : ℚ) * 100) })

/-- The rows of the data-transfer table (metrics with unit `data`). -/
def dataRowsOf (data : Snapshot) :
    Except Unit (List (String × FmtBytes × FmtBytes × FmtBytes × FmtBytes)) :=
  (data.metrics.filter (fun p => p.2.unit = "data")).mapM
    (fun p => dataRow data.metrics p.1 p.2)

/-- `generateHTML(data)` with the `new Date().toISOString()` value made
an explicit argument: produces the document content, or the thrown
`TypeError` when a property of `undefined` is read. -/
def generateHTML (data : Snapshot) (timestamp : ℚ) :
    Except Unit RenderedReport :=
  let metrics := data.metrics
  let ts := data.timeseriesData
  match reqSummaryBlock data, dataRowsOf data with
  | .error e, _ => .error e
  | _, .error e => .error e
  | .ok reqBlock, .ok dataRows => .ok
      { titleTimestamp := timestamp
        summaryStartTime := timestamp
        summaryDuration := formatDuration (.num data.testDuration)
        summaryRequests := reqBlock
        summaryAvgResponse := (metrics.lookup "http_req_duration").map
          (fun e => formatDuration (statJ e.stats Stats.avg))
        timeRows := (metrics.filter (fun p => p.2.unit = "time")).map
          (fun p => (p.1, timeStatFields.map
            (fun f => formatDuration (statJ p.2.stats f))))
        dataRows := dataRows
        chartTimestamps := ts.timestamps
        chartVus := ts.vus
        chartResponseTime := ts.responseTime
        chartDistBuckets := ts.responseTimeDistribution.map (·.1)
        chartDistCounts := ts.responseTimeDistribution.map (·.2)
        chartSortedResponseTimes := sortAsc (ts.responseTime.map (·.2))
        chartStatusCodes := ts.statusCodes }

/-- Erase the two timestamp-derived fields of a rendered report. -/
def stripTimestamps (r : RenderedReport) : RenderedReport :=
  { r with titleTimestamp := 0, summaryStartTime := 0 }

/-- The requests-per-second loop embedded in the report's `<script>`:
`currentSecond` starts at `Math.floor` of the first timestamp with a
count of 0; a same-second timestamp increments the count, a new second
pushes the previous bucket; the loop body never pushes the bucket in
progress when the input ends. -/
def rpsLoop (cur : ℤ) (cnt : ℕ) : List ℚ → List (ℤ × ℕ)
  | [] => []
  | t :: rest =>
      if ⌊t⌋ = cur then rpsLoop cur (cnt + 1) rest
      else (cur, cnt) :: rpsLoop ⌊t⌋ 1 rest

/-- `rpsData` as computed by the chart script over
`timeseriesData.timestamps`. -/
def rpsData (ts : List ℚ) : List (ℤ × ℕ) :=
  match ts with
  | [] => []
  | t0 :: _ => rpsLoop ⌊t0⌋ 0 ts

/-- Sum of the per-status-code histogram counts. -/
def statusSum (l : List (String × ℕ)) : ℕ := (l.map (·.2)).sum

/-- The values a log line contributes to `samples[m]`: a `Point` for `m`
unless it is an `http_req_duration` sample without the status-200 tag. -/
def contribOf (m : String) : LogLine → List ℚ
  | .pointLine m' d =>
      if m' = m ∧ (m' = "http_req_duration" → tagStatus d.tags = some "200")
      then [d.value] else []
  | _ => []

/-- Warnings a single line emits: one for the `JSON.parse` throw path. -/
def warnOf : LogLine → ℕ
  | .garbage => 1
  | _ => 0

/-- The values contributed to `samples[m]` by a whole log, in order. -/
def contribs (m : String) : List LogLine → List ℚ
  | [] => []
  | l :: ls => contribOf m l ++ contribs m ls

/-- Total number of warnings a log emits. -/
def warnsOf : List LogLine → ℕ
  | [] => 0
  | l :: ls => warnOf l + warnsOf ls

/-- A log of four `vus` gauge samples at 1.1 s, 1.4 s, 1.9 s and 2.2 s. -/
def vusLog : List LogLine :=
  [.metricLine "vus" "gauge" "default",
   .pointLine "vus" { time := some 1100, value := 5, tags := none },
   .pointLine "vus" { time := some 1400, value := 5, tags := none },
   .pointLine "vus" { time := some 1900, value := 5, tags := none },
   .pointLine "vus" { time := some 2200, value := 5, tags := none }]

/-- A log of four `http_reqs` request-count samples at 1.1 s, 1.4 s,
1.9 s and 2.2 s, all tagged `status = "200"`. -/
def reqLog : List LogLine :=
  [.metricLine "http_reqs" "counter" "default",
   .pointLine "http_reqs"
     { time := some 1100, value := 1, tags := some [("status", "200")] },
   .pointLine "http_reqs"
     { time := some 1400, value := 1, tags := some [("status", "200")] },
   .pointLine "http_reqs"
     { time := some 1900, value := 1, tags := some [("status", "200")] },
   .pointLine "http_reqs"
     { time := some 2200, value := 1, tags := some [("status", "200")] }]

/-- A log that defines `http_req_duration` but attributes no sample to
it. -/
def noDataLog : List LogLine := [.metricLine "http_req_duration" "trend" "time"]

/-- A log with one `http_reqs` sample carrying no tags at all. -/
def untaggedReqLog : List LogLine :=
  [.metricLine "http_reqs" "counter" "default",
   .pointLine "http_reqs" { time := some 1000, value := 1, tags := none }]

/-- A log whose single record is a `Point` for the never-defined metric
`http_req_duration` without a status-200 tag. -/
def filteredPointLog : List LogLine :=
  [.pointLine "http_req_duration"
    { time := some 1100, value := 50, tags := none }]

/-- A log whose single record is a `Point` for a never-defined custom
metric. -/
def orphanPointLog : List LogLine :=
  [.pointLine "custom_metric" { time := some 1100, value := 50, tags := none }]

/-- A truthy `status` tag: present and a nonempty string. -/
def truthyStatus (d : PointData) : Bool :=
  match tagStatus d.tags with
  | some s => s ≠ ""
  | none => false

/-- A line is well-tagged for request accounting: any `http_reqs`
`Point` carries a truthy `time` and a truthy `status` tag. -/
def goodReqLine : LogLine → Bool
  | .pointLine m d =>
      if m = "http_reqs" then d.time.isSome && truthyStatus d else true
  | _ => true

/-- The statistics `processK6Output` computes for `reqLog`. -/
def reqStats : Stats :=
  { min := 1, max := 1, avg := 1, med := 1, p90 := 1, p95 := 1, p99 := 1,
    count := 4 }

/-- The `http_reqs` entry `processK6Output` computes for `reqLog`. -/
def reqEntry : MetricEntry :=
  { type := "counter", contains := "default", unit := "count",
    stats := some reqStats }

/-- The aggregate snapshot `processK6Output` computes for `reqLog`. -/
def reqSnap : Snapshot :=
  { metrics := [("http_reqs", reqEntry)]
    testDuration := 1100
    timeseriesData :=
      { timestamps := [], vus := [], responseTime := []
        requests := [(11/10, 1, some "200"), (7/5, 1, some "200"),
                     (19/10, 1, some "200"), (11/5, 1, some "200")]
        dataTransfer := [], statusCodes := [("200", 4)]
        responseTimeDistribution := [] } }

/-- The `http_req_duration` entry created by `noDataLog`. -/
def noDataEntry : MetricEntry :=
  { type := "trend", contains := "time", unit := "time", stats := none }

/-- An empty timeseries collection. -/
def emptyTimeseries : TimeseriesData :=
  { timestamps := [], vus := [], responseTime := [], requests := []
    dataTransfer := [], statusCodes := [], responseTimeDistribution := [] }

/-- A snapshot with a data-unit metric but no `http_reqs` entry. -/
def dataNoReqsSnap : Snapshot :=
  { metrics := [("data_received",
      { type := "counter", contains := "data", unit := "data",
        stats := none })]
    testDuration := 0
    timeseriesData := emptyTimeseries }

/-- A snapshot with no metrics at all. -/
def emptySnap : Snapshot :=
  { metrics := [], testDuration := 0, timeseriesData := emptyTimeseries }

section AssocLemmas

variable {α : Type}

theorem lookup_cons_self (k : String) (v : α) (l : List (String × α)) :
    ((k, v) :: l).lookup k = some v := by
  simp [List.lookup]

theorem lookup_cons_ne (k k' : String) (v : α) (l : List (String × α))
    (h : k' ≠ k) : ((k, v) :: l).lookup k' = l.lookup k' := by
  simp [List.lookup, beq_eq_false_iff_ne.mpr h]

theorem lookup_upsert (l : List (String × α)) (k : String) (v : α) :
    (upsert l k v).lookup k = some v := by
  induction l with
  | nil => simp [upsert, lookup_cons_self]
  | cons p rest ih =>
      obtain ⟨k', v'⟩ := p
      by_cases h : k' = k
      · subst h
        simp [upsert, lookup_cons_self]
      · simp [upsert, h, lookup_cons_ne _ _ _ _ (Ne.symm h), ih]

theorem lookup_upsert_ne (l : List (String × α)) (k k' : String) (v : α)
    (h : k' ≠ k) : (upsert l k v).lookup k' = l.lookup k' := by
  induction l with
  | nil =>
      rw [show upsert ([] : List (String × α)) k v = [(k, v)] from rfl,
        lookup_cons_ne _ _ _ _ h]
  | cons p rest ih =>
      obtain ⟨k'', v''⟩ := p
      by_cases h2 : k'' = k
      · subst h2
        simp [upsert, lookup_cons_ne _ _ _ _ h]
      · by_cases h3 : k'' = k'
        · subst h3
          simp [upsert, h2, lookup_cons_self]
        · simp [upsert, h2, lookup_cons_ne _ _ _ _ (Ne.symm h3), ih]

theorem mem_of_lookup {l : List (String × α)} {k : String} {v : α}
    (h : l.lookup k = some v) : (k, v) ∈ l := by
  induction l with
  | nil => simp [List.lookup] at h
  | cons p rest ih =>
      obtain ⟨k', v'⟩ := p
      by_cases h2 : k' = k
      · subst h2
        rw [lookup_cons_self] at h
        simp at h
        simp [h]
      · rw [lookup_cons_ne _ _ _ _ (Ne.symm h2)] at h
        simp [ih h]

theorem lookup_pushSample_self (l : List (String × List ℚ)) (k : String)
    (v : ℚ) :
    ((pushSample l k v).lookup k).getD [] = ((l.lookup k).getD []) ++ [v] := by
  induction l with
  | nil => simp [pushSample, lookup_cons_self, List.lookup]
  | cons p rest ih =>
      obtain ⟨k', vs⟩ := p
      by_cases h : k' = k
      · subst h
        simp [pushSample, lookup_cons_self]
      · simp [pushSample, h, lookup_cons_ne _ _ _ _ (Ne.symm h), ih]

theorem lookup_pushSample_ne (l : List (String × List ℚ)) (k k' : String)
    (v : ℚ) (h : k' ≠ k) : (pushSample l k v).lookup k' = l.lookup k' := by
  induction l with
  | nil =>
      rw [show pushSample [] k v = [(k, [v])] from rfl,
        lookup_cons_ne _ _ _ _ h]
  | cons p rest ih =>
      obtain ⟨k'', vs⟩ := p
      by_cases h2 : k'' = k
      · subst h2
        simp [pushSample, lookup_cons_ne _ _ _ _ h]
      · by_cases h3 : k'' = k'
        · subst h3
          simp [pushSample, h2, lookup_cons_self]
        · simp [pushSample, h2, lookup_cons_ne _ _ _ _ (Ne.symm h3), ih]

theorem statusSum_bump (l : List (String × ℕ)) (k : String) :
    statusSum (bump l k) = statusSum l + 1 := by
  induction l with
  | nil => simp [bump, statusSum]
  | cons p rest ih =>
      obtain ⟨k', n⟩ := p
      by_cases h : k' = k
      · simp [bump, h, statusSum]
        omega
      · simp [bump, h, statusSum]
        simp [statusSum] at ih
        omega

theorem pushSample_ne_nil {l : List (String × List ℚ)} {k : String} {v : ℚ}
    (h : ∀ p ∈ l, p.2 ≠ ([] : List ℚ)) :
    ∀ p ∈ pushSample l k v, p.2 ≠ ([] : List ℚ) := by
  induction l with
  | nil => simp [pushSample]
  | cons q rest ih =>
      obtain ⟨k', vs⟩ := q
      intro p hp
      by_cases h2 : k' = k
      · simp [pushSample, h2] at hp
        rcases hp with hp | hp
        · simp [hp]
        · exact h p (by simp [hp])
      · simp [pushSample, h2] at hp
        rcases hp with hp | hp
        · exact h p (by simp [hp])
        · exact ih (fun q hq => h q (by simp [hq])) p hp

end AssocLemmas

section StateLemmas

theorem pointTimeseries_fields (st : ParseState) (m : String) (d : PointData) :
    (pointTimeseries st m d).samples = st.samples ∧
    (pointTimeseries st m d).metrics = st.metrics ∧
    (pointTimeseries st m d).warnings = st.warnings := by
  unfold pointTimeseries
  cases d.time with
  | none => exact ⟨rfl, rfl, rfl⟩
  | some tms =>
      dsimp only
      cases htag : tagStatus d.tags with
      | none => dsimp only; split_ifs <;> exact ⟨rfl, rfl, rfl⟩
      | some s => dsimp only; split_ifs <;> exact ⟨rfl, rfl, rfl⟩

theorem statusSum_pointTimeseries (st : ParseState) (m : String)
    (d : PointData) :
    statusSum (pointTimeseries st m d).statusCodes =
      statusSum st.statusCodes +
        (if m = "http_reqs" ∧ d.time ≠ none ∧
            (∃ s, tagStatus d.tags = some s ∧ s ≠ "") then 1 else 0) := by
  unfold pointTimeseries
  cases ht : d.time with
  | none => simp [ht]
  | some tms =>
      dsimp only
      cases htag : tagStatus d.tags with
      | none => dsimp only; split_ifs <;> simp_all [statusSum_bump]
      | some s => dsimp only; split_ifs <;> simp_all [statusSum_bump]

set_option maxHeartbeats 1000000 in
theorem pointTimeseries_warnings_set (st : ParseState) (m : String)
    (d : PointData) (w : ℕ) :
    pointTimeseries { st with warnings := w } m d =
      { pointTimeseries st m d with warnings := w } := by
  unfold pointTimeseries
  cases d.time with
  | none => rfl
  | some tms =>
      dsimp only
      cases htag : tagStatus d.tags with
      | none => dsimp only; split_ifs <;> rfl
      | some s => dsimp only; split_ifs <;> rfl

theorem processLine_warnings_set (st : ParseState) (l : LogLine) (w : ℕ) :
    processLine { st with warnings := w } l =
      { processLine st l with warnings := w + warnOf l } := by
  cases l with
  | blank => simp [processLine, warnOf]
  | garbage => simp [processLine, warnOf]
  | otherLine => simp [processLine, warnOf]
  | metricLine n t c => simp [processLine, warnOf]
  | pointLine m d =>
      simp only [processLine, processPoint, warnOf,
        pointTimeseries_warnings_set]
      split_ifs <;> simp

theorem samples_processLine (st : ParseState) (l : LogLine) (m : String) :
    (((processLine st l).samples.lookup m).getD []) =
      ((st.samples.lookup m).getD []) ++ contribOf m l := by
  cases l with
  | blank => simp [processLine, contribOf]
  | garbage => simp [processLine, contribOf]
  | otherLine => simp [processLine, contribOf]
  | metricLine n t c => simp [processLine, contribOf]
  | pointLine m' d =>
      simp only [processLine, processPoint, contribOf]
      by_cases hskip : m' = "http_req_duration" ∧ tagStatus d.tags ≠ some "200"
      · rw [if_pos hskip, (pointTimeseries_fields st m' d).1]
        have hc : ¬ (m' = m ∧
            (m' = "http_req_duration" → tagStatus d.tags = some "200")) := by
          tauto
        rw [if_neg hc, List.append_nil]
      · rw [if_neg hskip]
        simp only [(pointTimeseries_fields st m' d).1]
        by_cases hm : m' = m
        · subst hm
          rw [lookup_pushSample_self]
          have hc : m' = m' ∧
              (m' = "http_req_duration" → tagStatus d.tags = some "200") := by
            tauto
          rw [if_pos hc]
        · rw [lookup_pushSample_ne _ _ _ _ (Ne.symm hm)]
          rw [if_neg (by tauto), List.append_nil]

theorem metrics_processPoint (st : ParseState) (m : String) (d : PointData) :
    (processPoint st m d).metrics = st.metrics := by
  unfold processPoint
  split_ifs <;> simp [(pointTimeseries_fields st m d).2.1]

end StateLemmas

section FoldLemmas

theorem samples_foldl (lines : List LogLine) (st : ParseState) (m : String) :
    (((lines.foldl processLine st).samples.lookup m).getD []) =
      ((st.samples.lookup m).getD []) ++ contribs m lines := by
  induction lines generalizing st with
  | nil => simp [contribs]
  | cons l ls ih =>
      rw [List.foldl_cons, ih, samples_processLine, contribs,
        List.append_assoc]

theorem foldl_warnings_set (lines : List LogLine) (st : ParseState) (w : ℕ) :
    lines.foldl processLine { st with warnings := w } =
      { lines.foldl processLine st with warnings := w + warnsOf lines } := by
  induction lines generalizing st w with
  | nil => simp [warnsOf]
  | cons l ls ih =>
      rw [List.foldl_cons, processLine_warnings_set, ih, List.foldl_cons,
        warnsOf]
      rw [Nat.add_assoc]

theorem foldl_warnings (lines : List LogLine) (st : ParseState) :
    (lines.foldl processLine st).warnings = st.warnings + warnsOf lines := by
  have h := foldl_warnings_set lines st st.warnings
  simp at h
  rw [h]

theorem samples_ne_nil_processLine (st : ParseState) (l : LogLine)
    (h : ∀ p ∈ st.samples, p.2 ≠ ([] : List ℚ)) :
    ∀ p ∈ (processLine st l).samples, p.2 ≠ ([] : List ℚ) := by
  cases l with
  | blank => exact h
  | garbage => exact h
  | otherLine => exact h
  | metricLine n t c => exact h
  | pointLine m d =>
      unfold processLine processPoint
      dsimp only
      split_ifs with hc
      · rw [(pointTimeseries_fields st m d).1]
        exact h
      · show ∀ p ∈ pushSample (pointTimeseries st m d).samples m d.value,
          p.2 ≠ ([] : List ℚ)
        rw [(pointTimeseries_fields st m d).1]
        exact pushSample_ne_nil h

theorem samples_ne_nil_foldl (lines : List LogLine) :
    ∀ p ∈ (lines.foldl processLine initState).samples,
      p.2 ≠ ([] : List ℚ) := by
  have main : ∀ (ls : List LogLine) (st : ParseState),
      (∀ p ∈ st.samples, p.2 ≠ ([] : List ℚ)) →
      ∀ p ∈ (ls.foldl processLine st).samples, p.2 ≠ ([] : List ℚ) := by
    intro ls
    induction ls with
    | nil => intro st h; exact h
    | cons l ls ih =>
        intro st h
        rw [List.foldl_cons]
        exact ih _ (samples_ne_nil_processLine st l h)
  exact main lines initState (by simp [initState])

theorem mem_upsert {l : List (String × α)} {k : String} {v : α} :
    ∀ p ∈ upsert l k v, p ∈ l ∨ p = (k, v) := by
  induction l with
  | nil => simp [upsert]
  | cons q rest ih =>
      obtain ⟨k', v'⟩ := q
      intro p hp
      by_cases h : k' = k
      · simp [upsert, h] at hp
        rcases hp with hp | hp
        · right; simp [hp, h]
        · left; simp [hp]
      · simp [upsert, h] at hp
        rcases hp with hp | hp
        · left; simp [hp]
        · rcases ih p hp with h2 | h2
          · left; simp [h2]
          · right; exact h2

theorem metrics_stats_none_processLine (st : ParseState) (l : LogLine)
    (h : ∀ p ∈ st.metrics, p.2.stats = none) :
    ∀ p ∈ (processLine st l).metrics, p.2.stats = none := by
  cases l with
  | blank => exact h
  | garbage => exact h
  | otherLine => exact h
  | metricLine n t c =>
      intro p hp
      simp only [processLine] at hp
      rcases mem_upsert p hp with h2 | h2
      · exact h p h2
      · simp [h2]
  | pointLine m d =>
      rw [show (processLine st (.pointLine m d)).metrics = st.metrics from
        metrics_processPoint st m d]
      exact h

theorem metrics_stats_none_foldl (lines : List LogLine) :
    ∀ p ∈ (lines.foldl processLine initState).metrics, p.2.stats = none := by
  have main : ∀ (ls : List LogLine) (st : ParseState),
      (∀ p ∈ st.metrics, p.2.stats = none) →
      ∀ p ∈ (ls.foldl processLine st).metrics, p.2.stats = none := by
    intro ls
    induction ls with
    | nil => intro st h; exact h
    | cons l ls ih =>
        intro st h
        rw [List.foldl_cons]
        exact ih _ (metrics_stats_none_processLine st l h)
  exact main lines initState (by simp [initState])

theorem mem_keys_pushSample {l : List (String × List ℚ)} {k a : String}
    {v : ℚ} (h : a ∈ (pushSample l k v).map Prod.fst) :
    a ∈ l.map Prod.fst ∨ a = k := by
  induction l with
  | nil => simp [pushSample] at h; right; exact h
  | cons q rest ih =>
      obtain ⟨k', vs⟩ := q
      by_cases h2 : k' = k
      · rw [show pushSample ((k', vs) :: rest) k v = (k', vs ++ [v]) :: rest
          from by simp [pushSample, h2]] at h
        left
        simpa using h
      · rw [show pushSample ((k', vs) :: rest) k v =
            (k', vs) :: pushSample rest k v
          from by simp [pushSample, h2]] at h
        rw [List.map_cons, List.mem_cons] at h
        rcases h with h | h
        · left
          rw [List.map_cons, List.mem_cons]
          left; exact h
        · rcases ih h with h3 | h3
          · left
            rw [List.map_cons, List.mem_cons]
            right; exact h3
          · right; exact h3

theorem pushSample_keys_nodup {l : List (String × List ℚ)} {k : String}
    {v : ℚ} (h : (l.map Prod.fst).Nodup) :
    ((pushSample l k v).map Prod.fst).Nodup := by
  induction l with
  | nil => simp [pushSample]
  | cons q rest ih =>
      obtain ⟨k', vs⟩ := q
      rw [List.map_cons, List.nodup_cons] at h
      by_cases h2 : k' = k
      · rw [show pushSample ((k', vs) :: rest) k v = (k', vs ++ [v]) :: rest
          from by simp [pushSample, h2]]
        rw [List.map_cons, List.nodup_cons]
        exact h
      · rw [show pushSample ((k', vs) :: rest) k v =
            (k', vs) :: pushSample rest k v
          from by simp [pushSample, h2]]
        rw [List.map_cons, List.nodup_cons]
        refine ⟨?_, ih h.2⟩
        intro hmem
        rcases mem_keys_pushSample hmem with h3 | h3
        · exact h.1 h3
        · exact h2 h3

theorem samples_keys_nodup_processLine (st : ParseState) (l : LogLine)
    (h : (st.samples.map Prod.fst).Nodup) :
    ((processLine st l).samples.map Prod.fst).Nodup := by
  cases l with
  | blank => exact h
  | garbage => exact h
  | otherLine => exact h
  | metricLine n t c => exact h
  | pointLine m d =>
      unfold processLine processPoint
      dsimp only
      split_ifs with hc
      · rw [(pointTimeseries_fields st m d).1]
        exact h
      · show ((pushSample (pointTimeseries st m d).samples m
            d.value).map Prod.fst).Nodup
        rw [(pointTimeseries_fields st m d).1]
        exact pushSample_keys_nodup h

theorem samples_keys_nodup_foldl (lines : List LogLine) :
    (((lines.foldl processLine initState).samples).map Prod.fst).Nodup := by
  have main : ∀ (ls : List LogLine) (st : ParseState),
      ((st.samples.map Prod.fst)).Nodup →
      (((ls.foldl processLine st).samples).map Prod.fst).Nodup := by
    intro ls
    induction ls with
    | nil => intro st h; exact h
    | cons l ls ih =>
        intro st h
        rw [List.foldl_cons]
        exact ih _ (samples_keys_nodup_processLine st l h)
  exact main lines initState (by simp [initState])

end FoldLemmas

section FinalizeLemmas

theorem lookup_none_of_not_mem {α : Type} {l : List (String × α)}
    {k : String} (h : k ∉ l.map Prod.fst) : l.lookup k = none := by
  induction l with
  | nil => rfl
  | cons p rest ih =>
      obtain ⟨k', v⟩ := p
      rw [List.map_cons, List.mem_cons] at h
      push_neg at h
      have h1 : k ≠ k' := h.1
      rw [lookup_cons_ne k' k v rest h1]
      exact ih h.2

theorem finalizeMetrics_error (samples : List (String × List ℚ))
    (ms : List (String × MetricEntry)) (m : String) (vs : List ℚ)
    (hs : samples.lookup m = some vs) (hne : vs ≠ [])
    (hm : ms.lookup m = none) : finalizeMetrics ms samples = .error () := by
  induction samples generalizing ms with
  | nil => simp [List.lookup] at hs
  | cons p rest ih =>
      obtain ⟨k, ws⟩ := p
      by_cases hk : k = m
      · subst hk
        rw [lookup_cons_self] at hs
        injection hs with hs
        subst hs
        unfold finalizeMetrics
        rw [if_pos (List.length_pos.mpr hne), hm]
      · rw [lookup_cons_ne _ _ _ _ (Ne.symm hk)] at hs
        unfold finalizeMetrics
        by_cases hw : 0 < ws.length
        · rw [if_pos hw]
          cases hmk : ms.lookup k with
          | none => rfl
          | some e =>
              exact ih _ hs
                (by rw [lookup_upsert_ne _ _ _ _ (Ne.symm hk)]; exact hm)
        · rw [if_neg hw]
          exact ih _ hs hm

theorem finalizeMetrics_ok (samples : List (String × List ℚ))
    (ms : List (String × MetricEntry))
    (h : ∀ p ∈ samples, 0 < p.2.length → ms.lookup p.1 ≠ none) :
    ∃ ms', finalizeMetrics ms samples = .ok ms' := by
  induction samples generalizing ms with
  | nil => exact ⟨ms, rfl⟩
  | cons p rest ih =>
      obtain ⟨k, ws⟩ := p
      unfold finalizeMetrics
      by_cases hw : 0 < ws.length
      · rw [if_pos hw]
        cases hmk : ms.lookup k with
        | none => exact absurd hmk (h (k, ws) (by simp) hw)
        | some e =>
            apply ih
            intro p hp hpos
            by_cases hpk : p.1 = k
            · rw [hpk, lookup_upsert]
              simp
            · rw [lookup_upsert_ne _ _ _ _ hpk]
              exact h p (by simp [hp]) hpos
      · rw [if_neg hw]
        exact ih _ (fun p hp hpos => h p (by simp [hp]) hpos)

theorem finalizeMetrics_lookup_notin (samples : List (String × List ℚ))
    (ms : List (String × MetricEntry)) (m : String)
    (hs : samples.lookup m = none) {ms' : List (String × MetricEntry)}
    (hok : finalizeMetrics ms samples = .ok ms') :
    ms'.lookup m = ms.lookup m := by
  induction samples generalizing ms with
  | nil =>
      simp only [finalizeMetrics] at hok
      injection hok with hok
      rw [← hok]
  | cons p rest ih =>
      obtain ⟨k, ws⟩ := p
      have hk : k ≠ m := by
        intro he
        rw [he, lookup_cons_self] at hs
        exact Option.noConfusion hs
      rw [lookup_cons_ne _ _ _ _ (Ne.symm hk)] at hs
      unfold finalizeMetrics at hok
      by_cases hw : 0 < ws.length
      · rw [if_pos hw] at hok
        cases hmk : ms.lookup k with
        | none =>
            rw [hmk] at hok
            exact absurd hok (by simp)
        | some e =>
            rw [hmk] at hok
            rw [ih _ hs hok, lookup_upsert_ne _ _ _ _ (Ne.symm hk)]
      · rw [if_neg hw] at hok
        exact ih _ hs hok

theorem finalizeMetrics_lookup_in (samples : List (String × List ℚ))
    (ms : List (String × MetricEntry)) (m : String) (vs : List ℚ)
    (hnd : (samples.map Prod.fst).Nodup)
    (hs : samples.lookup m = some vs) (hpos : 0 < vs.length)
    {ms' : List (String × MetricEntry)}
    (hok : finalizeMetrics ms samples = .ok ms') :
    ms'.lookup m = (ms.lookup m).map
      (fun e => { e with stats := some (computeStats vs) }) := by
  induction samples generalizing ms with
  | nil => simp [List.lookup] at hs
  | cons p rest ih =>
      obtain ⟨k, ws⟩ := p
      rw [List.map_cons, List.nodup_cons] at hnd
      by_cases hk : k = m
      · subst hk
        rw [lookup_cons_self] at hs
        injection hs with hs
        subst hs
        unfold finalizeMetrics at hok
        rw [if_pos hpos] at hok
        cases hmk : ms.lookup k with
        | none =>
            rw [hmk] at hok
            exact absurd hok (by simp)
        | some e =>
            rw [hmk] at hok
            have hrest : rest.lookup k = none :=
              lookup_none_of_not_mem hnd.1
            rw [finalizeMetrics_lookup_notin rest _ k hrest hok,
              lookup_upsert]
            rfl
      · rw [lookup_cons_ne _ _ _ _ (Ne.symm hk)] at hs
        unfold finalizeMetrics at hok
        by_cases hw : 0 < ws.length
        · rw [if_pos hw] at hok
          cases hmk : ms.lookup k with
          | none =>
              rw [hmk] at hok
              exact absurd hok (by simp)
          | some e =>
              rw [hmk] at hok
              rw [ih _ hnd.2 hs hok,
                lookup_upsert_ne _ _ _ _ (Ne.symm hk)]
        · rw [if_neg hw] at hok
          exact ih _ hnd.2 hs hok

end FinalizeLemmas

section SortLemmas

theorem sortAsc_sorted (l : List ℚ) : (sortAsc l).Sorted (· ≤ ·) :=
  List.sorted_insertionSort _ l

theorem sortAsc_perm (l : List ℚ) : (sortAsc l).Perm l :=
  List.perm_insertionSort _ l

theorem sortAsc_length (l : List ℚ) : (sortAsc l).length = l.length :=
  (sortAsc_perm l).length_eq

theorem sorted_getD_mono {v : List ℚ} (hs : v.Sorted (· ≤ ·)) {i j : ℕ}
    (hij : i ≤ j) (hj : j < v.length) : v.getD i 0 ≤ v.getD j 0 := by
  have hi : i < v.length := lt_of_le_of_lt hij hj
  rw [List.getD_eq_getElem v 0 hi, List.getD_eq_getElem v 0 hj]
  have := @List.Sorted.rel_get_of_le ℚ (· ≤ ·) _ v hs ⟨i, hi⟩ ⟨j, hj⟩
    (Fin.mk_le_mk.mpr hij)
  simpa using this

theorem pIdx_mono (len : ℕ) {p q : ℚ} (hpq : p ≤ q) :
    pIdx len p ≤ pIdx len q := by
  unfold pIdx
  have hc : (0 : ℚ) ≤ (len : ℚ) := by positivity
  have h1 : ⌊(len : ℚ) * p⌋ ≤ ⌊(len : ℚ) * q⌋ :=
    Int.floor_le_floor (mul_le_mul_of_nonneg_left hpq hc)
  omega

theorem pIdx_lt_len {len : ℕ} (hlen : 0 < len) {p : ℚ} (hp1 : p < 1) :
    pIdx len p < len := by
  unfold pIdx
  have h1 : ⌊(len : ℚ) * p⌋ < (len : ℤ) := by
    rw [Int.floor_lt]
    push_cast
    have hc : (0 : ℚ) < (len : ℚ) := by positivity
    nlinarith
  omega

theorem half_le_pIdx (len : ℕ) : len / 2 ≤ pIdx len (9/10) := by
  unfold pIdx
  have h1 : ((len / 2 : ℕ) : ℤ) ≤ ⌊(len : ℚ) * (9/10)⌋ := by
    rw [Int.le_floor, Int.cast_natCast]
    have h2 : ((len / 2 : ℕ) : ℚ) ≤ (len : ℚ) / 2 := Nat.cast_div_le
    have hc : (0 : ℚ) ≤ (len : ℚ) := by positivity
    linarith
  omega

theorem computeStats_count (values : List ℚ) :
    (computeStats values).count = values.length := by
  simp [computeStats, sortAsc_length]

end SortLemmas

/-- C1: for N > 0 samples the aggregator sorts ascending and reports the
p-th percentile (p ∈ {0.90, 0.95, 0.99}) as the value at sorted index
`⌊N·p⌋` (nearest rank, no interpolation); the median is the middle value
for odd N and the mean of the two middle values for even N; in
particular for the 10 samples 10,20,…,100 the reported p90 is the value
at index `⌊0.9·10⌋ = 9` of the sorted list, namely 100. -/
theorem c1_nearest_rank_percentiles (values : List ℚ) (_h : values ≠ []) :
    (sortAsc values).Sorted (· ≤ ·) ∧
    (sortAsc values).Perm values ∧
    (computeStats values).p90 =
      (sortAsc values).getD (⌊(values.length : ℚ) * 0.90⌋).toNat 0 ∧
    (computeStats values).p95 =
      (sortAsc values).getD (⌊(values.length : ℚ) * 0.95⌋).toNat 0 ∧
    (computeStats values).p99 =
      (sortAsc values).getD (⌊(values.length : ℚ) * 0.99⌋).toNat 0 ∧
    (values.length % 2 = 1 →
      (computeStats values).med = (sortAsc values).getD (values.length / 2) 0) ∧
    (values.length % 2 = 0 →
      (computeStats values).med =
        ((sortAsc values).getD (values.length / 2 - 1) 0 +
          (sortAsc values).getD (values.length / 2) 0) / 2) ∧
    (computeStats [10,20,30,40,50,60,70,80,90,100]).p90 =
      (sortAsc [10,20,30,40,50,60,70,80,90,100]).getD 9 0 ∧
    (computeStats [10,20,30,40,50,60,70,80,90,100]).p90 = 100 := by
  have hlen := sortAsc_length values
  refine ⟨sortAsc_sorted values, sortAsc_perm values, ?_, ?_, ?_, ?_, ?_,
    by decide, by decide⟩
  · simp only [computeStats, pIdx, hlen]
    norm_num
  · simp only [computeStats, pIdx, hlen]
    norm_num
  · simp only [computeStats, pIdx, hlen]
    norm_num
  · intro hodd
    simp only [computeStats, hlen]
    rw [if_neg (by omega)]
  · intro heven
    simp only [computeStats, hlen]
    rw [if_pos heven]

/-- C1 witness: the theorem applied to the ten-sample log of the spec. -/
theorem c1_nearest_rank_percentiles_witness :
    ([10,20,30,40,50,60,70,80,90,100] : List ℚ) ≠ [] ∧
    (computeStats [10,20,30,40,50,60,70,80,90,100]).p90 = 100 :=
  ⟨by decide,
   (c1_nearest_rank_percentiles [10,20,30,40,50,60,70,80,90,100]
     (by decide)).2.2.2.2.2.2.2.2⟩

/-- C6: whenever a metric's computed statistics have a positive count,
the reported values are ordered `min ≤ med ≤ p90 ≤ p95 ≤ p99 ≤ max`. -/
theorem c6_stats_ordering (values : List ℚ)
    (h : 0 < (computeStats values).count) :
    (computeStats values).min ≤ (computeStats values).med ∧
    (computeStats values).med ≤ (computeStats values).p90 ∧
    (computeStats values).p90 ≤ (computeStats values).p95 ∧
    (computeStats values).p95 ≤ (computeStats values).p99 ∧
    (computeStats values).p99 ≤ (computeStats values).max := by
  have hs := sortAsc_sorted values
  have hn : 0 < (sortAsc values).length := by
    rw [computeStats_count] at h
    rw [sortAsc_length]
    exact h
  have h90n : pIdx (sortAsc values).length (9/10) < (sortAsc values).length :=
    pIdx_lt_len hn (by norm_num)
  have h95n :
      pIdx (sortAsc values).length (95/100) < (sortAsc values).length :=
    pIdx_lt_len hn (by norm_num)
  have h99n :
      pIdx (sortAsc values).length (99/100) < (sortAsc values).length :=
    pIdx_lt_len hn (by norm_num)
  have h9095 : pIdx (sortAsc values).length (9/10) ≤
      pIdx (sortAsc values).length (95/100) :=
    pIdx_mono _ (by norm_num)
  have h9599 : pIdx (sortAsc values).length (95/100) ≤
      pIdx (sortAsc values).length (99/100) :=
    pIdx_mono _ (by norm_num)
  have hhalf : (sortAsc values).length / 2 ≤
      pIdx (sortAsc values).length (9/10) := half_le_pIdx _
  have hmedn : (sortAsc values).length / 2 < (sortAsc values).length :=
    Nat.div_lt_self hn (by norm_num)
  refine ⟨?_, ?_, ?_, ?_, ?_⟩
  · simp only [computeStats]
    by_cases hpar : (sortAsc values).length % 2 = 0
    · rw [if_pos hpar]
      have ha : (sortAsc values).getD 0 0 ≤
          (sortAsc values).getD ((sortAsc values).length / 2 - 1) 0 :=
        sorted_getD_mono hs (Nat.zero_le _)
          (lt_of_le_of_lt (Nat.sub_le _ _) hmedn)
      have hb : (sortAsc values).getD 0 0 ≤
          (sortAsc values).getD ((sortAsc values).length / 2) 0 :=
        sorted_getD_mono hs (Nat.zero_le _) hmedn
      linarith
    · rw [if_neg hpar]
      exact sorted_getD_mono hs (Nat.zero_le _) hmedn
  · simp only [computeStats]
    have hb : (sortAsc values).getD ((sortAsc values).length / 2) 0 ≤
        (sortAsc values).getD (pIdx (sortAsc values).length (9/10)) 0 :=
      sorted_getD_mono hs hhalf h90n
    by_cases hpar : (sortAsc values).length % 2 = 0
    · rw [if_pos hpar]
      have ha : (sortAsc values).getD ((sortAsc values).length / 2 - 1) 0 ≤
          (sortAsc values).getD ((sortAsc values).length / 2) 0 :=
        sorted_getD_mono hs (Nat.sub_le _ _) hmedn
      linarith
    · rw [if_neg hpar]
      exact hb
  · exact sorted_getD_mono hs h9095 h95n
  · exact sorted_getD_mono hs h9599 h99n
  · simp only [computeStats]
    exact sorted_getD_mono hs (by omega) (by omega)

/-- C6 witness: the ordering at a concrete five-sample list. -/
theorem c6_stats_ordering_witness :
    0 < (computeStats [3, 1, 4, 1, 5]).count ∧
    (computeStats [3, 1, 4, 1, 5]).min ≤ (computeStats [3, 1, 4, 1, 5]).med :=
  ⟨by decide, (c6_stats_ordering [3, 1, 4, 1, 5] (by decide)).1⟩

example : (computeStats [10,20,30,40,50,60,70,80,90,100]).p90 = 100 := by decide
example : (computeStats [10,20,30,40,50,60,70,80,90,100]).med = 55 := by decide
example : (computeStats [1,2,3]).med = 2 := by decide
example : (computeStats [7]).p99 = 7 := by decide

/-- C3: a sample of `http_req_duration` is added to that metric's value
set iff its tag set contains `status = "200"`; a sample of any other
metric is added unconditionally (also with no tags at all). The per-line
contribution `contribOf` makes the filter explicit and the accumulated
value set equals the concatenation of the per-line contributions. -/
theorem c3_duration_status_filter (lines : List LogLine) :
    ((((lines.foldl processLine initState).samples.lookup
        "http_req_duration").getD []) = contribs "http_req_duration" lines) ∧
    (∀ m, m ≠ "http_req_duration" →
      (((lines.foldl processLine initState).samples.lookup m).getD []) =
        contribs m lines) ∧
    (∀ (m : String) (d : PointData), contribOf m (.pointLine m d) =
      if m = "http_req_duration" then
        (if tagStatus d.tags = some "200" then [d.value] else [])
      else [d.value]) := by
  refine ⟨?_, ?_, ?_⟩
  · rw [samples_foldl]
    simp [initState, List.lookup]
  · intro m _
    rw [samples_foldl]
    simp [initState, List.lookup]
  · intro m d
    simp only [contribOf]
    split_ifs <;> tauto

/-- C3 witness: the theorem applied to a log with one tagged duration
sample, one untagged duration sample, and one untagged custom sample. -/
theorem c3_duration_status_filter_witness :
    ("custom_trend" : String) ≠ "http_req_duration" ∧
    ((([LogLine.pointLine "http_req_duration"
          { time := none, value := 7,
            tags := some [("status", "200")] },
        LogLine.pointLine "http_req_duration"
          { time := none, value := 8, tags := none },
        LogLine.pointLine "custom_trend"
          { time := none, value := 9, tags := none }].foldl processLine
        initState).samples.lookup "custom_trend").getD []) =
      contribs "custom_trend"
        [LogLine.pointLine "http_req_duration"
          { time := none, value := 7,
            tags := some [("status", "200")] },
         LogLine.pointLine "http_req_duration"
          { time := none, value := 8, tags := none },
         LogLine.pointLine "custom_trend"
          { time := none, value := 9, tags := none }] :=
  ⟨by decide,
   (c3_duration_status_filter _).2.1 "custom_trend" (by decide)⟩

/-- C5: one non-JSON garbage line inserted anywhere leaves the result of
processing (snapshot included) unchanged except for exactly one extra
recorded warning, and a well-formed JSON line whose `type` is neither
`Metric` nor `Point` leaves the whole result (warnings included)
unchanged. -/
theorem c5_local_recovery (xs ys : List LogLine) :
    processK6Output (xs ++ LogLine.garbage :: ys) =
      (processK6Output (xs ++ ys)).map (fun p => (p.1, p.2 + 1)) ∧
    processK6Output (xs ++ LogLine.otherLine :: ys) =
      processK6Output (xs ++ ys) := by
  constructor
  · unfold processK6Output
    rw [List.foldl_append, List.foldl_append, List.foldl_cons]
    rw [show processLine (xs.foldl processLine initState) .garbage =
        { xs.foldl processLine initState with
          warnings := (xs.foldl processLine initState).warnings + 1 }
      from rfl]
    rw [foldl_warnings_set]
    cases hfin : finalizeMetrics
        (ys.foldl processLine (xs.foldl processLine initState)).metrics
        (ys.foldl processLine (xs.foldl processLine initState)).samples with
    | error e => simp [hfin, Except.map]
    | ok ms =>
        simp only [hfin, Except.map]
        simp [foldl_warnings, initState]
        omega
  · unfold processK6Output
    rw [List.foldl_append, List.foldl_append, List.foldl_cons]
    rfl

/-- C10 counterexample: a log whose only record is a `Point` for the
never-defined metric `http_req_duration` without a status-200 tag does
not make processing throw — the sample is filtered out before
attribution, so the run succeeds instead of failing. -/
theorem c10_counterexample :
    processK6Output filteredPointLog ≠ Except.error () := by decide

/-- C10 amended: processing throws exactly when some `Point` record is
actually attributed to `samples` (i.e. it survives the
`http_req_duration` status filter) while its metric name has no
`Metric` definition; the statistics loop then reads a property of
`undefined` and the run fails. -/
theorem c10_undefined_metric_throws (lines : List LogLine) (m : String)
    (vs : List ℚ)
    (hs : (lines.foldl processLine initState).samples.lookup m = some vs)
    (hm : (lines.foldl processLine initState).metrics.lookup m = none) :
    processK6Output lines = .error () := by
  have hne : vs ≠ [] := by
    have := samples_ne_nil_foldl lines (m, vs) (mem_of_lookup hs)
    simpa using this
  unfold processK6Output
  dsimp only
  rw [finalizeMetrics_error _ _ m vs hs hne hm]

/-- C10 witness: the amended theorem at a one-line log sampling an
undefined custom metric. -/
theorem c10_undefined_metric_throws_witness :
    (orphanPointLog.foldl processLine initState).samples.lookup
      "custom_metric" = some [50] ∧
    (orphanPointLog.foldl processLine initState).metrics.lookup
      "custom_metric" = none ∧
    processK6Output orphanPointLog = .error () :=
  ⟨by decide, by decide,
   c10_undefined_metric_throws orphanPointLog "custom_metric" [50]
     (by decide) (by decide)⟩

/-- C2 counterexample: the requests-per-second chart script, fed this
pipeline's `timeseriesData.timestamps`, emits nothing for a log of four
request-count events at 1.1 s, 1.4 s, 1.9 s, 2.2 s (request events never
feed `timestamps`), and even on the raw timestamp list
[1.1, 1.4, 1.9, 2.2] it emits [(1,3)] — not the claimed
[(1,3), (2,1)]. -/
theorem c2_counterexample :
    ((processK6Output reqLog).toOption.map
      (fun p => rpsData p.1.timeseriesData.timestamps) = some []) ∧
    rpsData [11/10, 14/10, 19/10, 22/10] = [(1, 3)] ∧
    ([((1:ℤ), (3:ℕ))] : List (ℤ × ℕ)) ≠ [(1, 3), (2, 1)] :=
  ⟨by decide, by decide, by decide⟩

/-- C2 amended: the series is computed over the `vus` gauge sample
timestamps, not request-count events; consecutive same-second
timestamps increment a running counter and a change of second emits the
previous bucket, but the bucket in progress when input ends is never
emitted (in particular a single-second input emits nothing); for vus
timestamps [1.1, 1.4, 1.9, 2.2] the emitted sequence is [(1, 3)]. -/
theorem c2_rps_bucketing_amended :
    (∀ (ts : List ℚ) (cur : ℤ) (cnt : ℕ),
      (∀ t ∈ ts, ⌊t⌋ = cur) → rpsLoop cur cnt ts = []) ∧
    ((processK6Output vusLog).toOption.map
      (fun p => (p.1.timeseriesData.timestamps,
                 rpsData p.1.timeseriesData.timestamps)) =
      some ([11/10, 14/10, 19/10, 22/10], [(1, 3)])) ∧
    ((processK6Output reqLog).toOption.map
      (fun p => p.1.timeseriesData.timestamps) = some []) := by
  refine ⟨?_, by decide, by decide⟩
  intro ts cur cnt h
  induction ts generalizing cnt with
  | nil => rfl
  | cons t rest ih =>
      unfold rpsLoop
      rw [if_pos (h t (by simp))]
      exact ih _ (fun t' ht' => h t' (by simp [ht']))

/-- C2 amended witness: the never-flushed final bucket on a concrete
same-second run. -/
theorem c2_rps_bucketing_amended_witness :
    rpsLoop 1 0 [11/10, 12/10, 19/10] = [] :=
  c2_rps_bucketing_amended.1 [11/10, 12/10, 19/10] 1 0 (by decide)

/-- C9: rendering is deterministic modulo the embedded generation
timestamp — for every aggregate snapshot, two invocations differ at
most in the two timestamp-derived fields (title and summary start
line); stripping those yields identical documents, and whether the
render throws does not depend on the timestamp either. -/
theorem c9_render_deterministic (s : Snapshot) (t1 t2 : ℚ) :
    (generateHTML s t1).map stripTimestamps =
      (generateHTML s t2).map stripTimestamps := by
  unfold generateHTML
  dsimp only
  cases reqSummaryBlock s <;> cases dataRowsOf s <;>
    simp [stripTimestamps, Except.map]

theorem mapM_except_error {α β : Type} (f : α → Except Unit β)
    (l : List α) (hne : l ≠ []) (h : ∀ x ∈ l, f x = .error ()) :
    l.mapM f = .error () := by
  cases l with
  | nil => exact absurd rfl hne
  | cons x xs =>
      rw [List.mapM_cons, h x (by simp)]
      rfl

/-- C8 counterexample: a snapshot holding a data-unit metric but no
`http_reqs` entry makes the whole render throw (the data-transfer
table's `Total` cell dereferences `metrics.http_reqs.stats`), instead
of degrading gracefully. -/
theorem c8_counterexample :
    dataNoReqsSnap.metrics.lookup "http_reqs" = none ∧
    generateHTML dataNoReqsSnap 0 = .error () :=
  ⟨by decide, by decide⟩

/-- C8 amended: with `http_reqs` absent, the summary block does degrade
gracefully (its dependent lines are omitted) and the render completes —
but only when the data-transfer table is empty (no metric has unit
`data`); as soon as any data-unit metric is present, the `Total` cell
reads a property of the absent `http_reqs` entry and the whole render
fails. -/
theorem c8_missing_reqs_render (s : Snapshot) (t : ℚ)
    (h : s.metrics.lookup "http_reqs" = none) :
    ((∀ p ∈ s.metrics, p.2.unit ≠ "data") →
      (generateHTML s t).map RenderedReport.summaryRequests =
        .ok none) ∧
    ((∃ p, p ∈ s.metrics ∧ p.2.unit = "data") →
      generateHTML s t = .error ()) := by
  have hreq : reqSummaryBlock s = .ok none := by
    unfold reqSummaryBlock
    rw [h]
  constructor
  · intro hnd
    have hfilter : s.metrics.filter (fun p => p.2.unit = "data") = [] := by
      rw [List.filter_eq_nil_iff]
      intro p hp
      simpa using hnd p hp
    have hrows : dataRowsOf s = .ok [] := by
      unfold dataRowsOf
      rw [hfilter]
      rfl
    unfold generateHTML
    dsimp only
    rw [hreq, hrows]
    rfl
  · rintro ⟨p, hp, hu⟩
    have hmem : p ∈ s.metrics.filter (fun q => q.2.unit = "data") :=
      List.mem_filter.mpr ⟨hp, by simp [hu]⟩
    have hrows : dataRowsOf s = .error () := by
      unfold dataRowsOf
      apply mapM_except_error
      · exact List.ne_nil_of_mem hmem
      · intro q _
        unfold dataRow
        rw [h]
    unfold generateHTML
    dsimp only
    rw [hreq, hrows]

/-- C8 witness: the amended theorem at a metric-free snapshot (render
completes, summary lines omitted) and at the data-metric snapshot
(render throws). -/
theorem c8_missing_reqs_render_witness :
    ((generateHTML emptySnap 0).map RenderedReport.summaryRequests =
      .ok none) ∧
    generateHTML dataNoReqsSnap 0 = .error () :=
  ⟨(c8_missing_reqs_render emptySnap 0 (by decide)).1 (by decide),
   (c8_missing_reqs_render dataNoReqsSnap 0 (by decide)).2
     ⟨("data_received",
       { type := "counter", contains := "data", unit := "data",
         stats := none }), by decide, by decide⟩⟩

theorem truthyStatus_iff (d : PointData) :
    truthyStatus d = true ↔
      ∃ s, tagStatus d.tags = some s ∧ s ≠ "" := by
  unfold truthyStatus
  cases h : tagStatus d.tags with
  | none => simp
  | some s => simp

theorem statusCodes_processPoint (st : ParseState) (m : String)
    (d : PointData) :
    (processPoint st m d).statusCodes =
      (pointTimeseries st m d).statusCodes := by
  unfold processPoint
  dsimp only
  split_ifs <;> rfl

theorem c7_inv_processLine (st : ParseState) (l : LogLine)
    (hgoodl : goodReqLine l = true)
    (hinv : statusSum st.statusCodes =
      ((st.samples.lookup "http_reqs").getD []).length) :
    statusSum (processLine st l).statusCodes =
      (((processLine st l).samples.lookup "http_reqs").getD []).length := by
  have hsam := samples_processLine st l "http_reqs"
  cases l with
  | blank => exact hinv
  | garbage => exact hinv
  | otherLine => exact hinv
  | metricLine n t c => exact hinv
  | pointLine m d =>
      rw [hsam]
      rw [show processLine st (.pointLine m d) = processPoint st m d
        from rfl, statusCodes_processPoint, statusSum_pointTimeseries]
      by_cases hm : m = "http_reqs"
      · subst hm
        unfold goodReqLine at hgoodl
        dsimp only at hgoodl
        rw [if_pos rfl, Bool.and_eq_true, Option.isSome_iff_ne_none]
          at hgoodl
        obtain ⟨ht, hs⟩ := hgoodl
        rw [if_pos ⟨rfl, ht, (truthyStatus_iff d).mp hs⟩]
        rw [show contribOf "http_reqs" (.pointLine "http_reqs" d) = [d.value]
          from by rw [contribOf, if_pos ⟨rfl, fun h => absurd h (by decide)⟩]]
        rw [List.length_append, hinv]
        simp
      · rw [if_neg (fun hc => hm hc.1)]
        rw [show contribOf "http_reqs" (.pointLine m d) = []
          from by rw [contribOf, if_neg (fun hc => hm hc.1)]]
        rw [List.append_nil, hinv]
        omega

theorem c7_inv_foldl (lines : List LogLine)
    (hgood : ∀ l ∈ lines, goodReqLine l = true) :
    statusSum (lines.foldl processLine initState).statusCodes =
      (((lines.foldl processLine initState).samples.lookup
        "http_reqs").getD []).length := by
  have main : ∀ (ls : List LogLine) (st : ParseState),
      (∀ l ∈ ls, goodReqLine l = true) →
      statusSum st.statusCodes =
        ((st.samples.lookup "http_reqs").getD []).length →
      statusSum (ls.foldl processLine st).statusCodes =
        (((ls.foldl processLine st).samples.lookup
          "http_reqs").getD []).length := by
    intro ls
    induction ls with
    | nil => intro st _ hinv; exact hinv
    | cons l rest ih =>
        intro st hg hinv
        rw [List.foldl_cons]
        exact ih _ (fun l' hl' => hg l' (by simp [hl']))
          (c7_inv_processLine st l (hg l (by simp)) hinv)
  exact main lines initState hgood (by simp [initState, statusSum, List.lookup])

/-- C7 counterexample: a log with one `http_reqs` Point carrying no
tags — the summary total counts it (count 1) but the per-status-code
histogram stays empty (sum 0), so "total = histogram sum" fails. -/
theorem c7_counterexample :
    ((processK6Output untaggedReqLog).toOption.map (fun p =>
      ((p.1.metrics.lookup "http_reqs").map (fun e => e.stats.map Stats.count),
       statusSum p.1.timeseriesData.statusCodes))) =
      some (some (some 1), 0) ∧ (1 : ℕ) ≠ 0 :=
  ⟨by decide, by decide⟩

/-- C7 amended: when every `http_reqs` Point record carries a truthy
`time` and a truthy `status` tag, the total request count in the
summary (the `http_reqs` statistics count) equals the sum of the
per-status-code histogram counts. -/
theorem c7_total_matches_histogram (lines : List LogLine)
    (hgood : ∀ l ∈ lines, goodReqLine l = true)
    (snap : Snapshot) (w : ℕ)
    (hok : processK6Output lines = .ok (snap, w))
    (e : MetricEntry) (st : Stats)
    (he : snap.metrics.lookup "http_reqs" = some e)
    (hst : e.stats = some st) :
    st.count = statusSum snap.timeseriesData.statusCodes := by
  unfold processK6Output at hok
  dsimp only at hok
  cases hfin : finalizeMetrics
      (lines.foldl processLine initState).metrics
      (lines.foldl processLine initState).samples with
  | error er =>
      rw [hfin] at hok
      exact absurd hok (by simp)
  | ok ms =>
      rw [hfin] at hok
      injection hok with hok
      rw [Prod.mk.injEq] at hok
      obtain ⟨hsnap, hw⟩ := hok
      subst hsnap
      dsimp only at he ⊢
      have hinv := c7_inv_foldl lines hgood
      cases hsamp : (lines.foldl processLine initState).samples.lookup
          "http_reqs" with
      | none =>
          have hnot := finalizeMetrics_lookup_notin _ _ "http_reqs" hsamp hfin
          rw [hnot] at he
          have h0 := metrics_stats_none_foldl lines _ (mem_of_lookup he)
          simp only at h0
          rw [hst] at h0
          exact Option.noConfusion h0
      | some vs =>
          have hpos : 0 < vs.length := by
            have h1 := samples_ne_nil_foldl lines ("http_reqs", vs)
              (mem_of_lookup hsamp)
            simp only at h1
            exact List.length_pos.mpr h1
          have hin := finalizeMetrics_lookup_in _ _ "http_reqs" vs
            (samples_keys_nodup_foldl lines) hsamp hpos hfin
          rw [hin] at he
          cases hm0 : (lines.foldl processLine initState).metrics.lookup
              "http_reqs" with
          | none =>
              rw [hm0] at he
              exact Option.noConfusion he
          | some e0 =>
              rw [hm0] at he
              injection he with he
              rw [← he] at hst
              dsimp only at hst
              injection hst with hst
              rw [← hst, computeStats_count]
              rw [hinv, hsamp]
              rfl

/-- C7 witness: the amended theorem at the four-request log `reqLog`,
where the count and the histogram sum are both 4. -/
theorem c7_total_matches_histogram_witness :
    (∀ l ∈ reqLog, goodReqLine l = true) ∧
    reqStats.count = statusSum reqSnap.timeseriesData.statusCodes :=
  ⟨by decide,
   c7_total_matches_histogram reqLog (by decide) reqSnap 0 (by decide)
     reqEntry reqStats (by decide) (by decide)⟩

/-- C4 counterexample: for a log defining `http_req_duration` with zero
attributed samples, the pipeline succeeds and the rendered response-time
table row for that metric consists of seven `NaN`-payload cells
("NaN m") — a NaN artifact in the output table, not an explicit
"no data" state. -/
theorem c4_counterexample :
    (processK6Output noDataLog).toOption.map (fun p =>
      (generateHTML p.1 0).toOption.map RenderedReport.timeRows) =
      some (some [("http_req_duration",
        List.replicate 7 ⟨"m", JNum.nan⟩)]) := by decide

/-- C4 amended: for a log in which metric `m` is defined but receives
no samples (and every sampled metric is defined, so the statistics loop
has nothing to throw on), processing succeeds, `m`'s statistics stay
absent, and whenever the document renders, `m`'s row in the
response-time table is made of `NaN` cells ("NaN m") rather than an
explicit "no data" state. -/
theorem c4_no_data_rendering (lines : List LogLine) (m : String)
    (em : MetricEntry)
    (hdef : (lines.foldl processLine initState).metrics.lookup m = some em)
    (hnos : (lines.foldl processLine initState).samples.lookup m = none)
    (hclean : ∀ p ∈ (lines.foldl processLine initState).samples,
      (lines.foldl processLine initState).metrics.lookup p.1 ≠ none) :
    (processK6Output lines).isOk = true ∧
    (∀ snap w, processK6Output lines = .ok (snap, w) →
      snap.metrics.lookup m = some em ∧ em.stats = none ∧
      (em.unit = "time" → ∀ (t : ℚ) r, generateHTML snap t = .ok r →
        (m, List.replicate 7 (⟨"m", JNum.nan⟩ : FmtDur)) ∈ r.timeRows)) := by
  obtain ⟨ms, hfin⟩ := finalizeMetrics_ok
    (lines.foldl processLine initState).samples
    (lines.foldl processLine initState).metrics
    (fun p hp _ => hclean p hp)
  have hstats : em.stats = none :=
    metrics_stats_none_foldl lines _ (mem_of_lookup hdef)
  constructor
  · unfold processK6Output
    dsimp only
    rw [hfin]
    rfl
  · intro snap w hok
    unfold processK6Output at hok
    dsimp only at hok
    rw [hfin] at hok
    injection hok with hok
    rw [Prod.mk.injEq] at hok
    obtain ⟨hsnap, hw⟩ := hok
    have hlk : snap.metrics.lookup m = some em := by
      rw [← hsnap]
      dsimp only
      rw [finalizeMetrics_lookup_notin _ _ m hnos hfin]
      exact hdef
    refine ⟨hlk, hstats, ?_⟩
    intro hu t r hr
    unfold generateHTML at hr
    dsimp only at hr
    cases h1 : reqSummaryBlock snap <;> cases h2 : dataRowsOf snap <;>
        rw [h1, h2] at hr
    · exact absurd hr (by simp)
    · exact absurd hr (by simp)
    · exact absurd hr (by simp)
    · injection hr with hr
      rw [← hr]
      dsimp only
      have hmem : (m, em) ∈ snap.metrics.filter
          (fun p => p.2.unit = "time") :=
        List.mem_filter.mpr ⟨mem_of_lookup hlk, by simp [hu]⟩
      have hmm := List.mem_map_of_mem
        (fun p : String × MetricEntry =>
          (p.1, timeStatFields.map (fun f => formatDuration (statJ p.2.stats f))))
        hmem
      dsimp only at hmm
      rw [hstats] at hmm
      rw [show timeStatFields.map (fun f => formatDuration (statJ none f)) =
        List.replicate 7 (⟨"m", JNum.nan⟩ : FmtDur) from by decide] at hmm
      exact hmm

/-- C4 witness: the amended theorem at the log that defines
`http_req_duration` and attributes nothing to it. -/
theorem c4_no_data_rendering_witness :
    ((noDataLog.foldl processLine initState).metrics.lookup
      "http_req_duration" = some noDataEntry) ∧
    ((processK6Output noDataLog).isOk = true ∧
     (∀ snap w, processK6Output noDataLog = .ok (snap, w) →
       snap.metrics.lookup "http_req_duration" = some noDataEntry ∧
       noDataEntry.stats = none ∧
       (noDataEntry.unit = "time" → ∀ (t : ℚ) r,
         generateHTML snap t = .ok r →
         ("http_req_duration",
           List.replicate 7 (⟨"m", JNum.nan⟩ : FmtDur)) ∈ r.timeRows))) :=
  ⟨by decide,
   c4_no_data_rendering noDataLog "http_req_duration" noDataEntry
     (by decide) (by decide) (by decide)⟩
